import Mathlib

/-!
Verification of the ultra-doc-intelligence document QA/extraction pipeline.

Shallow embedding of `app/services/parser.py`, `app/services/rag.py`,
`app/services/llm.py` and `app/routers/documents.py`.  External collaborators
(the Gemini embedding/LLM clients, the Chroma vector index, `json.loads`, and
the langchain text splitter) are modelled as explicit function parameters or
abstract state; Python `float` scores are modelled exactly as rationals (`ℚ`)
and Python's `round(x, 4)` as rounding `x * 10000` to the nearest integer.
Python `str` operations used by the code (`strip`, `split`, `join`,
`startswith`) are re-implemented structurally on `List Char` / `String` so
that every definition evaluates by kernel reduction.
-/

/-! ## Python string primitives -/

/-- Model of Python `"sep".join(l)` on `String`. -/
def pyJoinS (sep : String) : List String → String
  | [] => ""
  | [x] => x
  | x :: y :: ys => x ++ sep ++ pyJoinS sep (y :: ys)

/-- Helper for Python `str.strip`: remove the maximal run of trailing
whitespace characters (a whitespace char is kept only when a later
character is not dropped). -/
def dropTrail : List Char → List Char
  | [] => []
  | a :: l =>
    if a.isWhitespace then
      match dropTrail l with
      | [] => []
      | x :: xs => a :: x :: xs
    else a :: dropTrail l

/-- Model of Python `str.strip()` on character lists: drop leading and
trailing whitespace. -/
def pyStrip (l : List Char) : List Char :=
  dropTrail (l.dropWhile Char.isWhitespace)

/-- Model of Python `str.strip()` on `String`. -/
def pyStripS (s : String) : String :=
  String.mk (pyStrip s.data)

/-- Model of Python `s.startswith(pre)` on character lists
(`startsWithL pre s`). -/
def startsWithL : List Char → List Char → Bool
  | [], _ => true
  | _ :: _, [] => false
  | p :: ps, c :: cs => p = c && startsWithL ps cs

/-- Model of Python `s.split(c)` for a single-character separator. -/
def splitChar (c : Char) : List Char → List (List Char)
  | [] => [[]]
  | x :: xs =>
    if x = c then [] :: splitChar c xs
    else
      match splitChar c xs with
      | [] => [[x]]
      | l :: ls => (x :: l) :: ls

/-- Model of Python `c.join(lines)` for a single-character separator. -/
def pyJoinC (sep : Char) : List (List Char) → List Char
  | [] => []
  | [x] => x
  | x :: y :: ys => x ++ sep :: pyJoinC sep (y :: ys)

/-- Fueled worker for `splitOnL`: left-to-right non-overlapping split on a
non-empty separator, consuming at least one character per step. -/
def splitGo (sep : List Char) : ℕ → List Char → List (List Char)
  | _, [] => [[]]
  | 0, l => [l]
  | fuel + 1, c :: rest =>
    if sep.isPrefixOf (c :: rest) then
      [] :: splitGo sep fuel (List.drop (sep.length - 1) rest)
    else
      match splitGo sep fuel rest with
      | [] => [[c]]
      | l :: ls => (c :: l) :: ls

/-- Model of Python `s.split(sep)` for a non-empty separator string. -/
def splitOnL (sep l : List Char) : List (List Char) :=
  splitGo sep l.length l

/-- Lines of a string, as in Python `s.split("\n")`. -/
def linesOf (s : String) : List String :=
  (splitChar (Char.ofNat 10) s.data).map String.mk

/-! ## Numeric model -/

/-- Model of Python `round(x, 4)` on exact rationals. -/
def round4 (q : ℚ) : ℚ :=
  ((round (q * 10000) : ℤ) : ℚ) / 10000

/-! ## `app/services/parser.py` -/

/-- Abstract content of one pdfplumber page: `tables` models
`page.extract_tables()` (cells may be `None`), `text` models
`page.extract_text()` (which may return `None`).  In pdfplumber
`extract_tables` extracts exactly the tables located by `find_tables`, so
the code's `table_bboxes` list is non-empty exactly when `tables` is. -/
structure PdfPage where
  tables : List (List (List (Option String)))
  text : Option String

/-- Model of `_table_to_text` (parser.py:5-11). -/
def table_to_text (table : List (List (Option String))) : String :=
  pyJoinS "\n" (table.map fun row => pyJoinS " | " (row.map fun c => pyStripS (c.getD "")))

/-- Cell texts collected from a page's tables (parser.py:34-39):
every non-empty stripped cell value. -/
def cellTexts (tables : List (List (List (Option String)))) : List String :=
  tables.flatMap fun t => t.flatMap fun row => row.filterMap fun c =>
    let s := pyStripS (c.getD "")
    if s = "" then none else some s

/-- The deduplicated free-text lines of a page with tables
(parser.py:40-45): non-empty stripped lines of the page text that do not
exactly match a table cell value. -/
def pdfRemainingLines (page : PdfPage) : List String :=
  (linesOf ((page.text).getD "")).filterMap fun ln =>
    let st := pyStripS ln
    if st = "" then none
    else if st ∈ cellTexts page.tables then none else some st

/-- Sections contributed by one PDF page (parser.py:19-54), with its 1-based
page number. -/
def pdfPageSections (page_num : ℕ) (page : PdfPage) : List String :=
  if page.tables.isEmpty then
    match page.text with
    | none => []
    | some t =>
      if pyStripS t = "" then []
      else ["[Page " ++ toString page_num ++ " – Text]\n" ++ pyStripS t]
  else
    (page.tables.filterMap fun tb =>
      let txt := table_to_text tb
      if pyStripS txt = "" then none
      else some ("[Page " ++ toString page_num ++ " – Table]\n" ++ txt))
    ++
    (if (pdfRemainingLines page).isEmpty then []
     else ["[Page " ++ toString page_num ++ " – Text]\n" ++ pyJoinS "\n" (pdfRemainingLines page)])

/-- Model of `parse_pdf` (parser.py:14-56) over the abstract page contents,
pages enumerated from 1. -/
def parse_pdf (pages : List PdfPage) : List String :=
  (pages.enum.map fun p => pdfPageSections (p.1 + 1) p.2).flatten

/-- Abstract content of a python-docx document: table cell texts and
paragraph texts in document order. -/
structure DocxFile where
  tables : List (List (List String))
  paragraphs : List String

/-- Text rendering of one DOCX table (parser.py:63-69). -/
def docxTableText (tbl : List (List String)) : String :=
  pyJoinS "\n" (tbl.map fun row => pyJoinS " | " (row.map pyStripS))

/-- Paragraph grouping loop of `parse_docx` (parser.py:74-85): consecutive
non-empty paragraphs accumulate into `block` (kept reversed), an empty
paragraph flushes a non-empty block, and a trailing block is flushed at the
end. -/
def docxParagraphSections : List String → List String → List String
  | [], block =>
    match block with
    | [] => []
    | _ :: _ => ["[Text]\n" ++ pyJoinS "\n" block.reverse]
  | p :: ps, block =>
    let text := pyStripS p
    if text = "" then
      match block with
      | [] => docxParagraphSections ps []
      | _ :: _ => ("[Text]\n" ++ pyJoinS "\n" block.reverse) :: docxParagraphSections ps []
    else docxParagraphSections ps (text :: block)

/-- Model of `parse_docx` (parser.py:59-87): tables first (1-based labels),
then grouped paragraph blocks. -/
def parse_docx (doc : DocxFile) : List String :=
  (doc.tables.enum.filterMap fun p =>
    let text := docxTableText p.2
    if pyStripS text = "" then none
    else some ("[Table " ++ toString (p.1 + 1) ++ "]\n" ++ text))
  ++ docxParagraphSections doc.paragraphs []

/-- Model of `parse_txt` (parser.py:90-102): split the raw content on
double newlines; every non-empty stripped block becomes a `[Text]` section. -/
def parse_txt (content : String) : List String :=
  (splitOnL "\n\n".data content.data).filterMap fun b =>
    let st := pyStripS (String.mk b)
    if st = "" then none else some ("[Text]\n" ++ st)

/-- The extension computed by `parse_document` (parser.py:107):
`path.rsplit(".", 1)[-1].lower()`, i.e. the lowercased part after the last
dot (the whole path when no dot occurs). -/
def fileExt (path : String) : String :=
  String.mk (((splitChar (Char.ofNat 46) path.data).getLastD []).map Char.toLower)

/-- Model of `parse_document` (parser.py:105-115): dispatch on the
extension; the three concrete parsers are abstract parameters. -/
def parse_document (pdfP docxP txtP : String → List String) (path : String) :
    Except String (List String) :=
  let ext := fileExt path
  if ext = "pdf" then Except.ok (pdfP path)
  else if ext = "docx" then Except.ok (docxP path)
  else if ext = "txt" then Except.ok (txtP path)
  else Except.error ("Unsupported file type: ." ++ ext)

/-! ## `app/services/rag.py` -/

/-- One chunk as persisted by `store_chunks` (rag.py:48-53): text plus the
metadata written into the index. -/
structure StoredChunk where
  text : String
  doc_id : String
  filename : String
  chunk_index : ℕ

/-- Model of `store_chunks` (rag.py:38-63).  The langchain
`RecursiveCharacterTextSplitter` is the abstract `splitter` parameter and
the generated `uuid` hex token is the abstract `doc_id` parameter; the
function returns the `(doc_id, num_chunks)` pair of the code together with
the chunk records it persists. -/
def store_chunks (splitter : List String → List String) (doc_id : String)
    (sections : List String) (filename : String) : (String × ℕ) × List StoredChunk :=
  let texts := splitter sections
  ((doc_id, texts.length),
   texts.enum.map fun p =>
     { text := p.2, doc_id := doc_id, filename := filename, chunk_index := p.1 })

/-- One element of the list returned by `retrieve` (rag.py:74-83):
the `{text, score, chunk_index}` dict. -/
structure RetrievedChunk where
  text : String
  score : ℚ
  chunk_index : ℕ

/-- Model of the result-shaping loop of `retrieve` (rag.py:66-83).  The
underlying Chroma similarity search is abstracted into its raw result list
of `(page_content, chunk_index metadata, distance)` triples; each reported
score is `round(1.0 - distance, 4)`. -/
def retrieve (results : List (String × ℕ × ℚ)) : List RetrievedChunk :=
  results.map fun r =>
    { text := r.1, score := round4 (1 - r.2.2), chunk_index := r.2.1 }

/-- Model of `get_full_text` (rag.py:86-94) over the stored
`(document, chunk_index)` pairs of one collection: sort ascending by
`chunk_index` and join the texts with a blank line. -/
def get_full_text (data : List (String × ℕ)) : String :=
  pyJoinS "\n\n" ((List.insertionSort (fun a b => a.2 ≤ b.2) data).map Prod.fst)

/-- Modelled from the spec: the per-document Chroma collection store that
`_get_vectorstore` (rag.py:29-35) connects to is not part of the
repository; per spec §4.3/§6 an index lookup for a document identifier that
was never stored has no collection, and `retrieve`/`full_text` on it fail
with `DocumentNotFound`.  The store is an association list from document
identifier to the stored `(text, chunk_index)` pairs. -/
def lookupDoc : List (String × List (String × ℕ)) → String → Option (List (String × ℕ))
  | [], _ => none
  | (k, v) :: rest, d => if k = d then some v else lookupDoc rest d

/-! ## `app/services/llm.py` -/

/-- Result of `ask_question` (llm.py:170-195). -/
structure AskLLMOut where
  answer : String
  source_text : String
  confidence_score : ℚ

/-- Model of `ask_question` (llm.py:170-195).  The Gemini chain is the
abstract `llm` parameter mapping (context block, full text, question) to
the raw answer text. -/
def ask_question (llm : String → String → String → String) (query : String)
    (retrieved_chunks : List RetrievedChunk) (full_text : String) : AskLLMOut :=
  let chunk_texts := retrieved_chunks.map (·.text)
  let context_block := pyJoinS "\n\n---\n\n" chunk_texts
  let answer := llm context_block full_text query
  let scores := retrieved_chunks.map (·.score)
  let confidence := if scores.isEmpty then 0 else round4 (scores.sum / (scores.length : ℚ))
  let source_text := chunk_texts.headD ""
  { answer := pyStripS answer, source_text := source_text, confidence_score := confidence }

/-- Result of `extract_structured`: either the parsed JSON object or the
best-effort fallback mapping `{raw_response, error}` (llm.py:211-214). -/
inductive ExtractResult (J : Type) where
  | parsed (v : J)
  | fallback (raw_response : List Char) (error : String)
deriving DecidableEq

/-- The code-fence marker `"```"` as characters. -/
def fenceMarker : List Char := (Char.ofNat 96) :: (Char.ofNat 96) :: [Char.ofNat 96]

/-- The fence-stripping preprocessing of `extract_structured`
(llm.py:204-209): strip the response; when it starts with the fence marker
drop every line whose stripped form starts with the fence marker and
rejoin. -/
def fenceStripped (response : List Char) : List Char :=
  let raw := pyStrip response
  if startsWithL fenceMarker raw then
    pyJoinC (Char.ofNat 10)
      ((splitChar (Char.ofNat 10) raw).filter fun l => !startsWithL fenceMarker (pyStrip l))
  else raw

/-- Model of `extract_structured` (llm.py:198-215).  `jsonLoads` abstracts
`json.loads` (`none` = `JSONDecodeError`) and `response` abstracts the raw
LLM chain output for the extraction prompt. -/
def extract_structured {J : Type} (jsonLoads : List Char → Option J)
    (response : List Char) : ExtractResult J :=
  match jsonLoads (fenceStripped response) with
  | some v => ExtractResult.parsed v
  | none => ExtractResult.fallback (fenceStripped response) "Failed to parse LLM JSON output"

/-! ## `app/routers/documents.py` -/

/-- Response schema of the `/ask` route (schemas.py:16-19). -/
structure AskResponse where
  answer : String
  source_text : Option String
  confidence_score : ℚ
deriving DecidableEq

/-- Best score of `ask` (documents.py:58): `max(c["score"] for c in chunks)
if chunks else 0.0`. -/
def bestScore (chunks : List RetrievedChunk) : ℚ :=
  match chunks with
  | [] => 0
  | c :: cs => (cs.map (·.score)).foldl max c.score

/-- Model of the post-retrieval body of the `ask` route
(documents.py:58-68): gate on the best retrieved score against the 0.3
threshold, short-circuit below it, otherwise delegate to `ask_question`. -/
def ask (llm : String → String → String → String) (chunks : List RetrievedChunk)
    (full_text : String) (question : String) : AskResponse :=
  let best := bestScore chunks
  if best < 3/10 then
    { answer := "Not found in document.", source_text := none,
      confidence_score := round4 best }
  else
    let r := ask_question llm question chunks full_text
    { answer := r.answer, source_text := some r.source_text,
      confidence_score := r.confidence_score }

/-- Model of the full `ask` route (documents.py:50-68) against the
spec-modelled document store: an unknown identifier makes retrieval fail
and is mapped to an HTTP 404 `DocumentNotFound` response; otherwise the
abstract similarity `search` supplies the raw results for `retrieve`. -/
def askRoute (store : List (String × List (String × ℕ)))
    (search : List (String × ℕ) → List (String × ℕ × ℚ))
    (llm : String → String → String → String)
    (doc_id question : String) : Except (ℕ × String) AskResponse :=
  match lookupDoc store doc_id with
  | none => Except.error (404, "Document \x27" ++ doc_id ++ "\x27 not found")
  | some data =>
    Except.ok (ask llm (retrieve (search data)) (get_full_text data) question)

/-- Model of the `extract` route (documents.py:71-79): an unknown
identifier makes `get_full_text` fail and is mapped to HTTP 404; otherwise
the stored full text goes through the extraction LLM (`extractLLM`) and
`extract_structured`. -/
def extractRoute {J : Type} (store : List (String × List (String × ℕ)))
    (jsonLoads : List Char → Option J) (extractLLM : String → String)
    (doc_id : String) : Except (ℕ × String) (ExtractResult J) :=
  match lookupDoc store doc_id with
  | none => Except.error (404, "Document \x27" ++ doc_id ++ "\x27 not found")
  | some data =>
    Except.ok (extract_structured jsonLoads ((extractLLM (get_full_text data)).data))

/-! ## Helper lemmas -/

theorem splitChar_ne_nil (c : Char) (l : List Char) : splitChar c l ≠ [] := by
  induction l with
  | nil => simp [splitChar]
  | cons x xs ih =>
    simp only [splitChar]
    split
    · simp
    · cases h : splitChar c xs with
      | nil => simp
      | cons m ms => simp [h]

theorem splitChar_append_cons (c : Char) (a b : List Char) :
    splitChar c (a ++ c :: b) = splitChar c a ++ splitChar c b := by
  induction a with
  | nil => simp [splitChar]
  | cons x xs ih =>
    by_cases hx : x = c
    · subst hx
      simp [splitChar, ih]
    · simp only [List.cons_append, splitChar, if_neg hx]
      simp only [List.append_eq]
      rw [ih]
      cases h : splitChar c xs with
      | nil => exact absurd h (splitChar_ne_nil c xs)
      | cons m ms => simp [h]

theorem pyJoinC_splitChar (c : Char) (l : List Char) :
    pyJoinC c (splitChar c l) = l := by
  induction l with
  | nil => simp [splitChar, pyJoinC]
  | cons x xs ih =>
    by_cases hx : x = c
    · subst hx
      simp only [splitChar, if_pos rfl]
      cases h : splitChar x xs with
      | nil => exact absurd h (splitChar_ne_nil x xs)
      | cons m ms =>
        rw [h] at ih
        simp [pyJoinC, ih]
    · simp only [splitChar, if_neg hx]
      cases h : splitChar c xs with
      | nil => exact absurd h (splitChar_ne_nil c xs)
      | cons m ms =>
        rw [h] at ih
        cases ms with
        | nil => simp_all [pyJoinC]
        | cons m2 ms2 => simp_all [pyJoinC]

theorem dropTrail_cons_nonws {a : Char} (l : List Char) (h : a.isWhitespace = false) :
    dropTrail (a :: l) = a :: dropTrail l := by
  simp [dropTrail, h]

theorem dropTrail_append_nonws {b : Char} (l : List Char) (h : b.isWhitespace = false) :
    dropTrail (l ++ [b]) = l ++ [b] := by
  induction l with
  | nil => simp [dropTrail, h]
  | cons a l ih =>
    by_cases ha : a.isWhitespace
    · simp only [List.cons_append, dropTrail, if_pos ha]
      simp only [List.append_eq]
      rw [ih]
      cases hl : l ++ [b] with
      | nil => simp at hl
      | cons x xs => simp
    · simp only [List.cons_append, dropTrail, if_neg ha]
      simp only [List.append_eq]
      rw [ih]

theorem pyStrip_cons_nonws {a : Char} (l : List Char) (h : a.isWhitespace = false) :
    pyStrip (a :: l) = a :: dropTrail l := by
  simp [pyStrip, List.dropWhile_cons, h, dropTrail]

theorem pyStripS_ne_empty {s : String} (h : pyStripS s ≠ "") : s ≠ "" := by
  intro he
  subst he
  exact h rfl

theorem string_ne_empty_of_length_pos {s : String} (h : 0 < s.length) : s ≠ "" := by
  intro he
  subst he
  simp at h

theorem length_pos_of_ne_empty {x : String} (hx : x ≠ "") : 0 < x.length := by
  have hd : x.data ≠ [] := by
    intro hd
    apply hx
    cases x with
    | mk d => cases hd; rfl
  exact List.length_pos.mpr hd

theorem pyJoinS_cons_ne_empty (sep : String) (x : String) (l : List String)
    (hx : x ≠ "") : pyJoinS sep (x :: l) ≠ "" := by
  have hxl : 0 < x.length := length_pos_of_ne_empty hx
  cases l with
  | nil => simpa [pyJoinS] using hx
  | cons y ys =>
    apply string_ne_empty_of_length_pos
    simp only [pyJoinS, String.length_append]
    omega

/-! ## Claim theorems -/

/-- C1: for every document identifier that was never stored (no collection
exists under it in the index store), both the `ask` route and the `extract`
route fail with the 404 `DocumentNotFound` response instead of returning a
normal result. -/
theorem unknown_doc_fails_404 {J : Type} (store : List (String × List (String × ℕ)))
    (search : List (String × ℕ) → List (String × ℕ × ℚ))
    (llm : String → String → String → String)
    (jsonLoads : List Char → Option J) (extractLLM : String → String)
    (doc_id question : String)
    (h : lookupDoc store doc_id = none) :
    askRoute store search llm doc_id question =
      Except.error (404, "Document \x27" ++ doc_id ++ "\x27 not found") ∧
    extractRoute store jsonLoads extractLLM doc_id =
      Except.error (404, "Document \x27" ++ doc_id ++ "\x27 not found") := by
  constructor
  · simp [askRoute, h]
  · simp [extractRoute, h]

/-- Witness for C1 at the empty store and identifier `deadbeef`. -/
theorem unknown_doc_fails_404_witness :
    askRoute [] (fun _ => []) (fun _ _ _ => "") "deadbeef" "q" =
      Except.error (404, "Document \x27" ++ "deadbeef" ++ "\x27 not found") ∧
    extractRoute [] (fun _ => (none : Option Unit)) (fun s => s) "deadbeef" =
      Except.error (404, "Document \x27" ++ "deadbeef" ++ "\x27 not found") :=
  unknown_doc_fails_404 [] (fun _ => []) (fun _ _ _ => "") (fun _ => (none : Option Unit))
    (fun s => s) "deadbeef" "q" rfl

/-- C3: whenever the best retrieved score (0 when no chunk is returned) is
strictly below the 0.3 threshold, `ask` answers with the literal
`"Not found in document."`, a null source text and the rounded best score,
for every LLM whatsoever — the result does not depend on the `llm`
parameter, so no LLM call influences it. -/
theorem ask_short_circuits_below_threshold
    (llm : String → String → String → String) (results : List (String × ℕ × ℚ))
    (full_text question : String)
    (h : bestScore (retrieve results) < 3/10) :
    ask llm (retrieve results) full_text question =
      { answer := "Not found in document.", source_text := none,
        confidence_score := round4 (bestScore (retrieve results)) } := by
  simp [ask, h]

/-- Witness for C3: an empty retrieval (best score 0) short-circuits. -/
theorem ask_short_circuits_below_threshold_witness :
    ask (fun _ _ _ => "ignored") (retrieve []) "ft" "q" =
      { answer := "Not found in document.", source_text := none,
        confidence_score := round4 (bestScore (retrieve [])) } :=
  ask_short_circuits_below_threshold (fun _ _ _ => "ignored") [] "ft" "q"
    (by norm_num [retrieve, bestScore])

/-- C4: on the LLM path (best score at or above the threshold) with a
non-empty retrieval list, the reported confidence is the 4-decimal-rounded
mean of the retrieved scores and the source text is the first retrieved
chunk's text. -/
theorem ask_llm_path_confidence_and_source
    (llm : String → String → String → String) (results : List (String × ℕ × ℚ))
    (full_text question : String)
    (h : 3/10 ≤ bestScore (retrieve results)) (hne : retrieve results ≠ []) :
    (ask llm (retrieve results) full_text question).confidence_score =
      round4 ((((retrieve results).map (·.score)).sum) /
        ((((retrieve results).map (·.score)).length : ℕ) : ℚ)) ∧
    (ask llm (retrieve results) full_text question).source_text =
      some (((retrieve results).map (·.text)).headD "") := by
  have hlt : ¬ bestScore (retrieve results) < 3/10 := not_lt.mpr h
  have hie : ((retrieve results).map (·.score)).isEmpty = false := by
    cases hr : retrieve results with
    | nil => exact absurd hr hne
    | cons c cs => simp
  constructor
  · simp [ask, hlt, ask_question, hie]
  · simp [ask, hlt, ask_question]

/-- Witness for C4: a single retrieved chunk with distance 0.5. -/
theorem ask_llm_path_confidence_and_source_witness :
    (ask (fun _ _ _ => "a") (retrieve [("hello", 0, 1/2)]) "ft" "q").confidence_score =
      round4 ((((retrieve [("hello", 0, 1/2)]).map (·.score)).sum) /
        ((((retrieve [("hello", 0, 1/2)]).map (·.score)).length : ℕ) : ℚ)) ∧
    (ask (fun _ _ _ => "a") (retrieve [("hello", 0, 1/2)]) "ft" "q").source_text =
      some (((retrieve [("hello", 0, 1/2)]).map (·.text)).headD "") :=
  ask_llm_path_confidence_and_source (fun _ _ _ => "a") [("hello", 0, 1/2)] "ft" "q"
    (by norm_num [retrieve, bestScore, round4, round_eq])
    (by simp [retrieve])

/-- C5: `extract_structured` never fails: when the (fence-stripped) LLM
response is not accepted by the JSON parser it returns exactly the fallback
mapping with the unparsed text and the fixed error message, and on a
successful parse it returns the parsed object. -/
theorem extract_structured_best_effort {J : Type}
    (jsonLoads : List Char → Option J) (response : List Char) :
    (jsonLoads (fenceStripped response) = none →
      extract_structured jsonLoads response =
        ExtractResult.fallback (fenceStripped response) "Failed to parse LLM JSON output") ∧
    (∀ v : J, jsonLoads (fenceStripped response) = some v →
      extract_structured jsonLoads response = ExtractResult.parsed v) := by
  constructor
  · intro h
    simp [extract_structured, h]
  · intro v h
    simp [extract_structured, h]

/-- Witness for C5: a parser rejecting everything yields the fallback and a
parser producing a value yields the parsed object. -/
theorem extract_structured_best_effort_witness :
    extract_structured (fun _ => (none : Option ℕ)) "not json".data =
      ExtractResult.fallback (fenceStripped "not json".data) "Failed to parse LLM JSON output" ∧
    extract_structured (fun _ => some (7 : ℕ)) "whatever".data =
      ExtractResult.parsed 7 :=
  ⟨(extract_structured_best_effort (fun _ => (none : Option ℕ)) "not json".data).1 rfl,
   (extract_structured_best_effort (fun _ => some (7 : ℕ)) "whatever".data).2 7 rfl⟩

/-- C7: `store_chunks` tags the chunks produced by the splitter with
chunk_index values that form exactly the contiguous sequence `0..N-1`,
where `N` is the chunk count it returns. -/
theorem store_chunks_contiguous_indices (splitter : List String → List String)
    (doc_id : String) (sections : List String) (filename : String)
    (_h : sections ≠ []) :
    ((store_chunks splitter doc_id sections filename).2.map (·.chunk_index)) =
      List.range (store_chunks splitter doc_id sections filename).1.2 := by
  simp only [store_chunks, List.map_map]
  exact List.enum_map_fst (splitter sections)

/-- Witness for C7 with the identity splitter on a one-section document. -/
theorem store_chunks_contiguous_indices_witness :
    ((store_chunks (fun s => s) "d0" ["sec"] "f.txt").2.map (·.chunk_index)) =
      List.range (store_chunks (fun s => s) "d0" ["sec"] "f.txt").1.2 :=
  store_chunks_contiguous_indices (fun s => s) "d0" ["sec"] "f.txt" (by simp)

/-- C8: `get_full_text` returns the stored chunk texts sorted ascending by
chunk_index and joined with a blank-line separator, and (being a pure
function of the stored data) two calls without intervening writes agree. -/
theorem get_full_text_sorted_join (data : List (String × ℕ)) :
    ∃ l : List (String × ℕ), l.Perm data ∧ l.Sorted (fun a b => a.2 ≤ b.2) ∧
      get_full_text data = pyJoinS "\n\n" (l.map Prod.fst) ∧
      get_full_text data = get_full_text data := by
  refine ⟨List.insertionSort (fun a b => a.2 ≤ b.2) data,
    List.perm_insertionSort _ _, ?_, rfl, rfl⟩
  haveI ht : IsTotal (String × ℕ) (fun a b => a.2 ≤ b.2) := ⟨fun a b => le_total a.2 b.2⟩
  haveI htr : IsTrans (String × ℕ) (fun a b => a.2 ≤ b.2) :=
    ⟨fun _ _ _ h1 h2 => le_trans h1 h2⟩
  exact List.sorted_insertionSort _ data

/-- C9: `parse_document` on a path with a dot fails with the
unsupported-file-type error exactly when the lowercased extension is none
of pdf, docx, txt, and otherwise dispatches to the matching parser. -/
theorem parse_document_dispatch (pdfP docxP txtP : String → List String)
    (path : String) (_hdot : Char.ofNat 46 ∈ path.data) :
    (fileExt path ≠ "pdf" → fileExt path ≠ "docx" → fileExt path ≠ "txt" →
      parse_document pdfP docxP txtP path =
        Except.error ("Unsupported file type: ." ++ fileExt path)) ∧
    (fileExt path = "pdf" → parse_document pdfP docxP txtP path = Except.ok (pdfP path)) ∧
    (fileExt path = "docx" → parse_document pdfP docxP txtP path = Except.ok (docxP path)) ∧
    (fileExt path = "txt" → parse_document pdfP docxP txtP path = Except.ok (txtP path)) := by
  refine ⟨fun h1 h2 h3 => ?_, fun h => ?_, fun h => ?_, fun h => ?_⟩ <;>
    simp_all [parse_document]

/-- Witness for C9: an unrecognized extension errors, a pdf extension
dispatches to the pdf parser. -/
theorem parse_document_dispatch_witness :
    parse_document (fun _ => ["P"]) (fun _ => ["D"]) (fun _ => ["T"]) "invoice.xyz" =
      Except.error ("Unsupported file type: ." ++ fileExt "invoice.xyz") ∧
    parse_document (fun _ => ["P"]) (fun _ => ["D"]) (fun _ => ["T"]) "scan.PDF" =
      Except.ok ["P"] :=
  ⟨(parse_document_dispatch (fun _ => ["P"]) (fun _ => ["D"]) (fun _ => ["T"]) "invoice.xyz"
      (by decide)).1 (by decide) (by decide) (by decide),
   (parse_document_dispatch (fun _ => ["P"]) (fun _ => ["D"]) (fun _ => ["T"]) "scan.PDF"
      (by decide)).2.1 (by decide)⟩

/-- C2 counterexample: a retrieval whose single reported distance is
0.70004 has unrounded maximum similarity 0.29996 < 0.3, yet `ask` takes
the LLM path (the answer is the LLM's output, not the short-circuit
answer), because the score was rounded to 0.3 before the comparison. -/
theorem ask_threshold_unrounded_cex :
    ((1 : ℚ) - 70004/100000 < 3/10) ∧
    (ask (fun _ _ _ => "FOO") (retrieve [("t", 0, 70004/100000)]) "ft" "q").answer = "FOO" := by
  constructor
  · norm_num
  · have hb : bestScore (retrieve [("t", 0, 70004/100000)]) = 3/10 := by
      norm_num [retrieve, bestScore, round4, round_eq]
    have hlt : ¬ bestScore (retrieve [("t", 0, 70004/100000)]) < 3/10 := by
      rw [hb]
      exact lt_irrefl _
    simp only [ask, hlt, if_neg, if_false]
    simp [ask_question]
    decide

/-- C2 amended: every score reported for a retrieval is `round(1 - distance, 4)`
and the 0.3-threshold comparison in `ask` uses the maximum of these ROUNDED
scores (the rounding in `retrieve` happens before the gate): the LLM path is
taken exactly when the rounded maximum reaches 0.3, and the short-circuit
path exactly when the rounded maximum is below 0.3. -/
theorem ask_threshold_uses_rounded_max
    (llm : String → String → String → String) (results : List (String × ℕ × ℚ))
    (full_text question : String) :
    (3/10 ≤ bestScore (retrieve results) →
      ask llm (retrieve results) full_text question =
        { answer := (ask_question llm question (retrieve results) full_text).answer,
          source_text := some (ask_question llm question (retrieve results) full_text).source_text,
          confidence_score :=
            (ask_question llm question (retrieve results) full_text).confidence_score }) ∧
    (bestScore (retrieve results) < 3/10 →
      ask llm (retrieve results) full_text question =
        { answer := "Not found in document.", source_text := none,
          confidence_score := round4 (bestScore (retrieve results)) }) := by
  constructor
  · intro h
    simp [ask, not_lt.mpr h]
  · intro h
    simp [ask, h]

/-- Witness for the amended C2, exercising both directions of the gate:
rounded maximum 0.3 (from raw distance 0.70004) takes the LLM path, and
rounded maximum 0.25 (raw distance 0.75) short-circuits. -/
theorem ask_threshold_uses_rounded_max_witness :
    ask (fun _ _ _ => "FOO") (retrieve [("t", 0, 70004/100000)]) "ft" "q" =
      { answer := (ask_question (fun _ _ _ => "FOO") "q" (retrieve [("t", 0, 70004/100000)]) "ft").answer,
        source_text :=
          some (ask_question (fun _ _ _ => "FOO") "q" (retrieve [("t", 0, 70004/100000)]) "ft").source_text,
        confidence_score :=
          (ask_question (fun _ _ _ => "FOO") "q" (retrieve [("t", 0, 70004/100000)]) "ft").confidence_score } ∧
    ask (fun _ _ _ => "FOO") (retrieve [("u", 1, 3/4)]) "ft" "q" =
      { answer := "Not found in document.", source_text := none,
        confidence_score := round4 (bestScore (retrieve [("u", 1, 3/4)])) } :=
  ⟨(ask_threshold_uses_rounded_max (fun _ _ _ => "FOO") [("t", 0, 70004/100000)] "ft" "q").1
      (by norm_num [retrieve, bestScore, round4, round_eq]),
   (ask_threshold_uses_rounded_max (fun _ _ _ => "FOO") [("u", 1, 3/4)] "ft" "q").2
      (by norm_num [retrieve, bestScore, round4, round_eq])⟩

/-! ## Section shape (C10) -/

theorem str_ext {s t : String} (h : s.data = t.data) : s = t := by
  cases s; cases t; cases h; rfl

/-- The bracketed label forms produced by the three parsers. -/
def sectionLabel (label : String) : Prop :=
  label = "[Text]" ∨
  ∃ n : ℕ,
    label = "[Page " ++ toString n ++ " – Table]" ∨
    label = "[Page " ++ toString n ++ " – Text]" ∨
    label = "[Table " ++ toString n ++ "]"

/-- A well-formed section string: a bracketed label line embedded inline,
followed by a newline and non-empty content. -/
def goodSection (s : String) : Prop :=
  ∃ label content, sectionLabel label ∧ content ≠ "" ∧ s = label ++ "\n" ++ content

theorem pageText_shape (n : ℕ) (c : String) :
    "[Page " ++ toString n ++ " – Text]\n" ++ c =
    ("[Page " ++ toString n ++ " – Text]") ++ "\n" ++ c := by
  apply str_ext
  simp only [String.data_append, List.append_assoc]
  rfl

theorem pageTable_shape (n : ℕ) (c : String) :
    "[Page " ++ toString n ++ " – Table]\n" ++ c =
    ("[Page " ++ toString n ++ " – Table]") ++ "\n" ++ c := by
  apply str_ext
  simp only [String.data_append, List.append_assoc]
  rfl

theorem tableLabel_shape (n : ℕ) (c : String) :
    "[Table " ++ toString n ++ "]\n" ++ c =
    ("[Table " ++ toString n ++ "]") ++ "\n" ++ c := by
  apply str_ext
  simp only [String.data_append, List.append_assoc]
  rfl

theorem goodSection_ne_empty {s : String} (h : goodSection s) : s ≠ "" := by
  obtain ⟨label, content, _, _, rfl⟩ := h
  apply string_ne_empty_of_length_pos
  have h1 : (label ++ "\n" ++ content).length =
      label.length + ("\n" : String).length + content.length := by
    rw [String.length_append, String.length_append]
  have h2 : ("\n" : String).length = 1 := rfl
  omega

theorem parse_txt_sections_good (content : String) :
    ∀ s ∈ parse_txt content, goodSection s := by
  intro s hs
  simp only [parse_txt, List.mem_filterMap] at hs
  obtain ⟨b, _, hb⟩ := hs
  by_cases h : pyStripS (String.mk b) = ""
  · simp [h] at hb
  · simp only [h, if_false, Option.some.injEq] at hb
    refine ⟨"[Text]", pyStripS (String.mk b), Or.inl rfl, h, ?_⟩
    rw [← hb]
    rfl

theorem docxParagraphSections_good :
    ∀ (ps block : List String), (∀ x ∈ block, x ≠ "") →
      ∀ s ∈ docxParagraphSections ps block,
        ∃ c, c ≠ "" ∧ s = "[Text]\n" ++ c := by
  intro ps
  induction ps with
  | nil =>
    intro block hb s hs
    cases block with
    | nil => simp [docxParagraphSections] at hs
    | cons b bs =>
      simp only [docxParagraphSections, List.mem_singleton] at hs
      subst hs
      refine ⟨pyJoinS "\n" ((b :: bs).reverse), ?_, rfl⟩
      cases hr : (b :: bs).reverse with
      | nil => simp at hr
      | cons y ys =>
        have hy : y ∈ (b :: bs) := by
          rw [← List.mem_reverse, hr]
          exact List.mem_cons_self y ys
        exact pyJoinS_cons_ne_empty _ _ _ (hb y hy)
  | cons p ps ih =>
    intro block hb s hs
    simp only [docxParagraphSections] at hs
    by_cases hp : pyStripS p = ""
    · rw [if_pos hp] at hs
      cases block with
      | nil => exact ih [] (by simp) s hs
      | cons b bs =>
        rcases List.mem_cons.mp hs with hflush | hrec
        · subst hflush
          refine ⟨pyJoinS "\n" ((b :: bs).reverse), ?_, rfl⟩
          cases hr : (b :: bs).reverse with
          | nil => simp at hr
          | cons y ys =>
            have hy : y ∈ (b :: bs) := by
              rw [← List.mem_reverse, hr]
              exact List.mem_cons_self y ys
            exact pyJoinS_cons_ne_empty _ _ _ (hb y hy)
        · exact ih [] (by simp) s hrec
    · rw [if_neg hp] at hs
      refine ih (pyStripS p :: block) ?_ s hs
      intro x hx
      rcases List.mem_cons.mp hx with rfl | hx2
      · exact hp
      · exact hb x hx2

theorem parse_docx_sections_good (doc : DocxFile) :
    ∀ s ∈ parse_docx doc, goodSection s := by
  intro s hs
  simp only [parse_docx, List.mem_append] at hs
  rcases hs with htab | hpar
  · simp only [List.mem_filterMap] at htab
    obtain ⟨⟨i, tbl⟩, _, hf⟩ := htab
    by_cases h : pyStripS (docxTableText tbl) = ""
    · simp [h] at hf
    · simp only [h, if_false, Option.some.injEq] at hf
      refine ⟨"[Table " ++ toString (i + 1) ++ "]", docxTableText tbl,
        Or.inr ⟨i + 1, Or.inr (Or.inr rfl)⟩, pyStripS_ne_empty h, ?_⟩
      rw [← hf]
      exact tableLabel_shape (i + 1) (docxTableText tbl)
  · obtain ⟨c, hc, rfl⟩ := docxParagraphSections_good doc.paragraphs [] (by simp) s hpar
    exact ⟨"[Text]", c, Or.inl rfl, hc, rfl⟩

theorem pdfPageSections_good (n : ℕ) (page : PdfPage) :
    ∀ s ∈ pdfPageSections n page, goodSection s := by
  intro s hs
  by_cases he : page.tables.isEmpty
  · rw [pdfPageSections, if_pos he] at hs
    cases ht : page.text with
    | none => rw [ht] at hs; simp at hs
    | some t =>
      rw [ht] at hs
      by_cases hstr : pyStripS t = ""
      · simp [hstr] at hs
      · simp only [hstr, if_false, List.mem_singleton] at hs
        subst hs
        exact ⟨"[Page " ++ toString n ++ " – Text]", pyStripS t,
          Or.inr ⟨n, Or.inr (Or.inl rfl)⟩, hstr, pageText_shape n (pyStripS t)⟩
  · rw [pdfPageSections, if_neg he] at hs
    rcases List.mem_append.mp hs with htab | htxt
    · simp only [List.mem_filterMap] at htab
      obtain ⟨tb, _, hf⟩ := htab
      by_cases hstr : pyStripS (table_to_text tb) = ""
      · simp [hstr] at hf
      · simp only [hstr, if_false, Option.some.injEq] at hf
        refine ⟨"[Page " ++ toString n ++ " – Table]", table_to_text tb,
          Or.inr ⟨n, Or.inl rfl⟩, pyStripS_ne_empty hstr, ?_⟩
        rw [← hf]
        exact pageTable_shape n (table_to_text tb)
    · by_cases hre : (pdfRemainingLines page).isEmpty
      · simp [hre] at htxt
      · rw [if_neg hre] at htxt
        simp only [List.mem_singleton] at htxt
        subst htxt
        refine ⟨"[Page " ++ toString n ++ " – Text]", pyJoinS "\n" (pdfRemainingLines page),
          Or.inr ⟨n, Or.inr (Or.inl rfl)⟩, ?_,
          pageText_shape n (pyJoinS "\n" (pdfRemainingLines page))⟩
        cases hrc : pdfRemainingLines page with
        | nil => rw [hrc] at hre; simp at hre
        | cons r rs =>
          have hr : r ∈ pdfRemainingLines page := by
            rw [hrc]
            exact List.mem_cons_self r rs
          rw [pdfRemainingLines] at hr
          simp only [List.mem_filterMap] at hr
          obtain ⟨ln, _, hln⟩ := hr
          by_cases h1 : pyStripS ln = ""
          · simp [h1] at hln
          · by_cases h2 : pyStripS ln ∈ cellTexts page.tables
            · simp [h1, h2] at hln
            · simp only [h1, h2, if_false, Option.some.injEq] at hln
              exact pyJoinS_cons_ne_empty _ _ _ (hln ▸ h1)

theorem parse_pdf_sections_good (pages : List PdfPage) :
    ∀ s ∈ parse_pdf pages, goodSection s := by
  intro s hs
  simp only [parse_pdf, List.mem_flatten, List.mem_map] at hs
  obtain ⟨l, ⟨p, _, rfl⟩, hsl⟩ := hs
  exact pdfPageSections_good (p.1 + 1) p.2 s hsl

/-- C10: every section produced by `parse_pdf`, `parse_docx` or `parse_txt`
is a non-empty string beginning with one of the bracketed label lines
(`[Page N – Table]`, `[Page N – Text]`, `[Table i]`, `[Text]`) followed by a
newline and non-empty content; the label lives inline in the section text
itself. -/
theorem parser_sections_labeled (pages : List PdfPage) (doc : DocxFile)
    (content : String) (s : String)
    (h : s ∈ parse_pdf pages ∨ s ∈ parse_docx doc ∨ s ∈ parse_txt content) :
    goodSection s ∧ s ≠ "" := by
  have hg : goodSection s := by
    rcases h with h1 | h2 | h3
    · exact parse_pdf_sections_good pages s h1
    · exact parse_docx_sections_good doc s h2
    · exact parse_txt_sections_good content s h3
  exact ⟨hg, goodSection_ne_empty hg⟩

/-- Witness for C10 on a concrete TXT parse. -/
theorem parser_sections_labeled_witness :
    goodSection "[Text]\nhello" ∧ ("[Text]\nhello" : String) ≠ "" :=
  parser_sections_labeled [] ⟨[], []⟩ "hello" "[Text]\nhello"
    (Or.inr (Or.inr (by decide)))

/-! ## Fence-wrapping transparency (C6) -/

theorem splitChar_head_cons (c x : Char) (xs : List Char) (h : ¬ x = c) :
    ∃ m ms, splitChar c xs = m :: ms ∧ splitChar c (x :: xs) = (x :: m) :: ms := by
  cases hs : splitChar c xs with
  | nil => exact absurd hs (splitChar_ne_nil c xs)
  | cons m ms =>
    refine ⟨m, ms, rfl, ?_⟩
    simp only [splitChar, if_neg h, hs]

theorem startsWithL_fence_elim {l : List Char}
    (h : startsWithL fenceMarker l = true) :
    ∃ t, l = Char.ofNat 96 :: Char.ofNat 96 :: Char.ofNat 96 :: t := by
  match l with
  | [] => simp [startsWithL, fenceMarker] at h
  | [a] => simp [startsWithL, fenceMarker] at h
  | [a, b] => simp [startsWithL, fenceMarker] at h
  | a :: b :: c :: t =>
    simp only [startsWithL, fenceMarker, Bool.and_eq_true, decide_eq_true_eq] at h
    obtain ⟨ha, hb, hc, _⟩ := h
    exact ⟨t, by rw [← ha, ← hb, ← hc]⟩

theorem pyStrip_fence_head (m : List Char) :
    startsWithL fenceMarker
      (pyStrip (Char.ofNat 96 :: Char.ofNat 96 :: Char.ofNat 96 :: m)) = true := by
  have hg : (Char.ofNat 96).isWhitespace = false := by decide
  rw [pyStrip_cons_nonws _ hg, dropTrail_cons_nonws _ hg, dropTrail_cons_nonws _ hg]
  simp [startsWithL, fenceMarker]

theorem no_fence_lines_not_startsWith {R : List Char}
    (hlines : ∀ l ∈ splitChar (Char.ofNat 10) R,
      startsWithL fenceMarker (pyStrip l) = false) :
    startsWithL fenceMarker R = false := by
  cases hsw : startsWithL fenceMarker R with
  | false => rfl
  | true =>
    exfalso
    obtain ⟨t, rfl⟩ := startsWithL_fence_elim hsw
    have hne : ¬ Char.ofNat 96 = Char.ofNat 10 := by decide
    obtain ⟨m1, ms1, h1, h1c⟩ :=
      splitChar_head_cons (Char.ofNat 10) (Char.ofNat 96)
        (Char.ofNat 96 :: Char.ofNat 96 :: t) hne
    obtain ⟨m2, ms2, h2, h2c⟩ :=
      splitChar_head_cons (Char.ofNat 10) (Char.ofNat 96) (Char.ofNat 96 :: t) hne
    obtain ⟨m3, ms3, h3, h3c⟩ :=
      splitChar_head_cons (Char.ofNat 10) (Char.ofNat 96) t hne
    have e1 := h1.symm.trans h2c
    injection e1 with em1 ems1
    have e2 := h2.symm.trans h3c
    injection e2 with em2 ems2
    have hmem : (Char.ofNat 96 :: m1) ∈
        splitChar (Char.ofNat 10)
          (Char.ofNat 96 :: Char.ofNat 96 :: Char.ofNat 96 :: t) := by
      rw [h1c]
      exact List.mem_cons_self _ _
    have hfl := hlines _ hmem
    rw [em1, em2] at hfl
    rw [pyStrip_fence_head m3] at hfl
    exact Bool.true_eq_false.mp hfl

theorem pyStrip_wrapped (R : List Char) :
    pyStrip ("```json\n".data ++ R ++ "\n```".data) =
      "```json\n".data ++ R ++ "\n```".data := by
  have hg : (Char.ofNat 96).isWhitespace = false := by decide
  show pyStrip (Char.ofNat 96 :: ("``json\n".data ++ R ++ "\n```".data)) =
    Char.ofNat 96 :: ("``json\n".data ++ R ++ "\n```".data)
  rw [pyStrip_cons_nonws _ hg]
  congr 1
  have h2 : "``json\n".data ++ R ++ "\n```".data =
      ("``json\n".data ++ R ++ "\n``".data) ++ [Char.ofNat 96] := by
    simp [List.append_assoc]
  rw [h2, dropTrail_append_nonws _ hg]

theorem startsWith_wrapped (R : List Char) :
    startsWithL fenceMarker ("```json\n".data ++ R ++ "\n```".data) = true := rfl

theorem splitChar_wrapped (R : List Char) :
    splitChar (Char.ofNat 10) ("```json\n".data ++ R ++ "\n```".data) =
      "```json".data :: (splitChar (Char.ofNat 10) R ++ ["```".data]) := by
  show splitChar (Char.ofNat 10)
      ("```json".data ++ Char.ofNat 10 :: (R ++ Char.ofNat 10 :: "```".data)) = _
  rw [splitChar_append_cons, splitChar_append_cons]
  rfl

theorem fenceStripped_wrapped {R : List Char}
    (hlines : ∀ l ∈ splitChar (Char.ofNat 10) R,
      startsWithL fenceMarker (pyStrip l) = false) :
    fenceStripped ("```json\n".data ++ R ++ "\n```".data) = R := by
  rw [fenceStripped, pyStrip_wrapped, startsWith_wrapped, if_pos rfl, splitChar_wrapped]
  rw [List.filter_cons_of_neg, List.filter_append]
  · have hself : List.filter (fun l => !startsWithL fenceMarker (pyStrip l))
        (splitChar (Char.ofNat 10) R) = splitChar (Char.ofNat 10) R := by
      apply List.filter_eq_self.mpr
      intro l hl
      simp [hlines l hl]
    have hlast : List.filter (fun l => !startsWithL fenceMarker (pyStrip l))
        ["```".data] = [] := by decide
    rw [hself, hlast, List.append_nil, pyJoinC_splitChar]
  · decide

theorem fenceStripped_unwrapped {R : List Char}
    (hstrip : pyStrip R = R)
    (hlines : ∀ l ∈ splitChar (Char.ofNat 10) R,
      startsWithL fenceMarker (pyStrip l) = false) :
    fenceStripped R = R := by
  rw [fenceStripped, hstrip, no_fence_lines_not_startsWith hlines]
  simp

/-- C6: wrapping a JSON-parseable LLM response in Markdown code-fence
markers does not change the extraction result.  The two side conditions
hold for every valid JSON text: it carries no leading or trailing
whitespace (Python `json.loads` ignores surrounding whitespace, so this is
no loss), and since JSON string literals cannot contain raw newlines, no
line of a valid JSON document can begin with a backtick, hence no stripped
line starts with the fence marker. -/
theorem extract_fence_transparent {J : Type}
    (jsonLoads : List Char → Option J) (R : List Char) (v : J)
    (hstrip : pyStrip R = R)
    (hlines : ∀ l ∈ splitChar (Char.ofNat 10) R,
      startsWithL fenceMarker (pyStrip l) = false)
    (hparse : jsonLoads R = some v) :
    extract_structured jsonLoads ("```json\n".data ++ R ++ "\n```".data) =
      ExtractResult.parsed v ∧
    extract_structured jsonLoads R = ExtractResult.parsed v := by
  constructor
  · simp only [extract_structured, fenceStripped_wrapped hlines, hparse]
  · simp only [extract_structured, fenceStripped_unwrapped hstrip hlines, hparse]

/-- Witness for C6 on a small concrete JSON value. -/
theorem extract_fence_transparent_witness :
    extract_structured (fun l => if l = "[1, 2]".data then some () else none)
      ("```json\n".data ++ "[1, 2]".data ++ "\n```".data) = ExtractResult.parsed () ∧
    extract_structured (fun l => if l = "[1, 2]".data then some () else none)
      "[1, 2]".data = ExtractResult.parsed () :=
  extract_fence_transparent (fun l => if l = "[1, 2]".data then some () else none)
    "[1, 2]".data () (by decide) (by decide) (by decide)
